import Mathlib

/-!
# Verification of the eGreetz real-time audio pipeline

Shallow embedding of the audio utility module (`utils/audioUtils.ts`, shipped in
`src/components/Modal.tsx` after the shared `Modal` component), the playback
scheduler state it maintains, the live-recording inbound handler
(`src/components/GreetingForm.tsx`), and the audio/video sync playback logic of
`src/components/GreetingCard.tsx`.

Modelling conventions:
* JS numbers that hold audio sample values or clock times are modelled as `ℚ`
  (multiplication and division by `32768 = 2 ^ 15` are exact in IEEE doubles, so
  the rational model is faithful for the converted values).
* Byte sequences (`Uint8Array`, JS binary strings) are `List Nat` with each
  entry `< 256`; base64 text is `List Char`.
* Fallible host operations (`atob`, `new Int16Array(buffer)`,
  `ctx.createBuffer`) return `Option`/`Except` values.
-/

/-! ## Byte codec: `encode` / `decode` (audioUtils.ts lines 52-75)

`encode` builds a JS binary string whose character codes are exactly the input
bytes (`String.fromCharCode(bytes[i])`) and applies the host `btoa`; `decode`
applies the host `atob` and reads the character codes back.  A JS binary
string is identified with its list of character codes, so the two string
conversions are identities and the interesting content is the base64 step,
which we model concretely. -/

/-- The standard base64 alphabet used by `btoa` / `atob`. -/
def b64chars : List Char :=
  "ABCDEFGHIJKLMNOPQRSTUVWXYZabcdefghijklmnopqrstuvwxyz0123456789+/".toList

/-- Character for a six-bit group (index into the base64 alphabet). -/
def sextetChar (n : Nat) : Char := b64chars.getD n 'A'

/-- Six-bit value of a base64 character; `none` for characters outside the
alphabet (on which `atob` raises `InvalidCharacterError`). -/
def charSextet (c : Char) : Option Nat := b64chars.indexOf? c

/-- Host `btoa` on a binary string, given as the list of its character codes.
Groups of three 8-bit codes become four sextet characters; a final group of
one or two codes is padded with `'='`. -/
def btoa : List Nat → List Char
  | [] => []
  | [a] => [sextetChar (a / 4), sextetChar (a % 4 * 16), '=', '=']
  | [a, b] =>
      [sextetChar (a / 4), sextetChar (a % 4 * 16 + b / 16), sextetChar (b % 16 * 4), '=']
  | a :: b :: c :: rest =>
      sextetChar (a / 4) :: sextetChar (a % 4 * 16 + b / 16) ::
        sextetChar (b % 16 * 4 + c / 64) :: sextetChar (c % 64) :: btoa rest

/-- Host `atob`: four base64 characters yield three bytes; `'='` padding is
accepted only at the very end and yields one or two final bytes; anything
else (bad length, characters outside the alphabet, misplaced padding) is a
decoding error, modelled as `none`. -/
def atob : List Char → Option (List Nat)
  | [] => some []
  | c1 :: c2 :: c3 :: c4 :: rest =>
      match charSextet c1, charSextet c2 with
      | some s1, some s2 =>
          if c3 = '=' then
            if c4 = '=' then
              if rest = [] then some [s1 * 4 + s2 / 16] else none
            else none
          else
            match charSextet c3 with
            | some s3 =>
                if c4 = '=' then
                  if rest = [] then some [s1 * 4 + s2 / 16, s2 % 16 * 16 + s3 / 4] else none
                else
                  match charSextet c4 with
                  | some s4 =>
                      (atob rest).map
                        (fun bs => (s1 * 4 + s2 / 16) :: (s2 % 16 * 16 + s3 / 4) ::
                          ((s3 % 4 * 64 + s4) :: bs))
                  | none => none
            | none => none
      | _, _ => none
  | _ => none

/-- `encode` (audioUtils.ts 52-59): per-byte `String.fromCharCode` followed by
`btoa`; with binary strings identified with their code lists this is `btoa`
on the byte list. -/
def encode (bytes : List Nat) : List Char := btoa bytes

/-- `decode` (audioUtils.ts 67-75): `atob` followed by per-character
`charCodeAt`; with the same identification this is `atob`. -/
def decode (base64 : List Char) : Option (List Nat) := atob base64

/-! ## Sample converter (audioUtils.ts 86-121) -/

/-- Reading a 16-bit word as a signed value, as `Int16Array` element access
does: values `≥ 2 ^ 15` wrap to negatives. -/
def toSigned16 (u : Nat) : Int := if u < 32768 then (u : Int) else (u : Int) - 65536

/-- The unsigned 16-bit residue of an integer (ECMAScript `ToUint16`). -/
def uint16 (v : Int) : Nat := (v % 65536).toNat

/-- ECMAScript `ToInt16` applied to an integer: reduce modulo `2 ^ 16` and
reinterpret as signed.  This is the wrap-around an `Int16Array` element
assignment performs; there is no clamping. -/
def toInt16 (v : Int) : Int := toSigned16 (uint16 v)

/-- ECMAScript truncation of a (rational-valued) number toward zero, the first
step of `ToInt16`. -/
def truncRat (q : ℚ) : Int := if 0 ≤ q then ⌊q⌋ else ⌈q⌉

/-- The little-endian byte view of an `Int16Array`, as exposed by its
underlying `ArrayBuffer` (`new Uint8Array(int16.buffer)`). -/
def int16ToBytesLE (vs : List Int) : List Nat :=
  vs.flatMap (fun v => [uint16 v % 256, uint16 v / 256])

/-- The `Int16Array` view of a byte buffer (`new Int16Array(data.buffer)`),
pairing bytes little-endian and reading each pair as signed.  The caller
guards the even-length requirement (the constructor throws otherwise), so a
dangling final byte does not occur; it would be dropped here. -/
def bytesToInt16LE : List Nat → List Int
  | [] => []
  | [_] => []
  | lo :: hi :: rest => toSigned16 (lo + 256 * hi) :: bytesToInt16LE rest

/-- The element conversion of `createAudioBlob` (audioUtils.ts 115):
`int16[i] = data[i] * 32768`, i.e. multiply by `32768`, truncate toward zero,
and wrap into the signed 16-bit range. -/
def floatToInt16 (s : ℚ) : Int := toInt16 (truncRat (s * 32768))

/-- The `Int16Array` built by `createAudioBlob`'s loop (audioUtils.ts 113-116). -/
def createAudioBlobInt16 (data : List ℚ) : List Int := data.map floatToInt16

/-- The `Blob` value returned by `createAudioBlob`: base64 text plus a MIME
descriptor carrying the sample rate. -/
structure GenAIBlob where
  data : List Char
  mimeType : String
deriving DecidableEq

/-- `createAudioBlob` (audioUtils.ts 111-121): convert the float samples to
PCM16 with wrap-around, expose the little-endian bytes, base64-encode them,
and tag with `audio/pcm;rate=<sampleRate>`. -/
def createAudioBlob (data : List ℚ) (sampleRate : Nat) : GenAIBlob :=
  { data := encode (int16ToBytesLE (createAudioBlobInt16 data)),
    mimeType := "audio/pcm;rate=" ++ toString sampleRate }

/-- The `AudioBuffer` produced by `decodeAudioData`: per-channel sample lists. -/
structure AudioBufferModel where
  numChannels : Nat
  length : Nat
  sampleRate : Nat
  channelData : List (List ℚ)

/-- Host exceptions surfaced by `decodeAudioData`: `RangeError` from
`new Int16Array(buffer)` when the byte length is odd, and `NotSupportedError`
from `ctx.createBuffer` when the channel count or computed frame count is
unusable. -/
inductive DecodeError
  | rangeError
  | notSupportedError
deriving DecidableEq

/-- `decodeAudioData` (audioUtils.ts 86-103).  `new Int16Array(data.buffer)`
throws a `RangeError` when `data.byteLength` is odd.  `frameCount` is
`dataInt16.length / numChannels` in JS real division; `ctx.createBuffer`
coerces it through WebIDL `unsigned long` (truncation, modelled by `Nat`
division) and throws `NotSupportedError` for zero channels or zero length.
When the int16 count is not a multiple of `numChannels`, the final fractional
loop iteration writes past the end of the `Float32Array`, which JS silently
drops, so exactly `⌊len16 / numChannels⌋` frames land per channel.  Each
sample is `dataInt16[i * numChannels + channel] / 32768.0`. -/
def decodeAudioData (data : List Nat) (sampleRate numChannels : Nat) :
    Except DecodeError AudioBufferModel :=
  if data.length % 2 ≠ 0 then .error .rangeError
  else if numChannels = 0 ∨ (bytesToInt16LE data).length / numChannels = 0 then
    .error .notSupportedError
  else
    .ok { numChannels := numChannels,
          length := (bytesToInt16LE data).length / numChannels,
          sampleRate := sampleRate,
          channelData := (List.range numChannels).map (fun channel =>
            (List.range ((bytesToInt16LE data).length / numChannels)).map (fun i =>
              ((bytesToInt16LE data).getD (i * numChannels + channel) 0 : ℚ) / 32768)) }

/-! ## Playback scheduler (audioUtils.ts 138-167) and the live-session path
(GreetingForm.tsx `onmessage`, lines 160-184)

The module keeps two globals: `nextStartTime` (the cursor) and `audioSources`
(the set of source nodes registered by `playAudioBuffer`).  We also track
`playing`, the set of source nodes currently running on the audio context,
so that "stop" effects are observable: `stopAllAudio` stops exactly the
registered sources.  Source nodes are identified by `Nat` handles. -/

structure AudioWorld where
  nextStartTime : ℚ
  audioSources : List Nat
  playing : List Nat
deriving DecidableEq

/-- The start time `playAudioBuffer` passes to `source.start`
(audioUtils.ts 154: `nextStartTime = Math.max(nextStartTime, ctx.currentTime)`),
given the device clock reading `now`. -/
def playStartTime (w : AudioWorld) (now : ℚ) : ℚ := max w.nextStartTime now

/-- `playAudioBuffer` (audioUtils.ts 152-167): clamp the cursor forward to the
device clock, start a fresh source node `src` at that time, advance the cursor
by the buffer's duration, and register the node in `audioSources`. -/
def playAudioBuffer (w : AudioWorld) (now duration : ℚ) (src : Nat) : AudioWorld :=
  let startAt := playStartTime w now
  { nextStartTime := startAt + duration,
    audioSources := src :: w.audioSources,
    playing := src :: w.playing }

/-- The `ended` listener registered by `playAudioBuffer` (audioUtils.ts
160-162): on natural completion the node stops and is removed from
`audioSources`. -/
def sourceEnded (w : AudioWorld) (src : Nat) : AudioWorld :=
  { w with audioSources := w.audioSources.erase src,
           playing := w.playing.erase src }

/-- `stopAllAudio` (audioUtils.ts 139-148): call `stop()` on every registered
source and clear the registry.  The cursor `nextStartTime` is not touched. -/
def stopAllAudio (w : AudioWorld) : AudioWorld :=
  { w with audioSources := [],
           playing := w.playing.filter (fun s => !w.audioSources.contains s) }

/-- The audio playback done by the live-session `onmessage` handler
(GreetingForm.tsx 160-184) for one inbound audio chunk: it keeps a
session-local `nextStartTime`, creates a source node, connects and starts it
at `max localCursor now`, and advances only the local cursor.  The node is
never added to the module-global `audioSources`, no `ended` listener is
attached, and the global `nextStartTime` is not read or written.  Returns the
updated world, the new local cursor, and the start time used. -/
def liveOnmessagePlay (w : AudioWorld) (localCursor now duration : ℚ) (src : Nat) :
    AudioWorld × ℚ × ℚ :=
  let startAt := max localCursor now
  ({ w with playing := src :: w.playing }, startAt + duration, startAt)

/-! ## Sync playback logic (GreetingCard.tsx 246-334, 362-367)

State visible to the handlers: the React state flags, the pending timeout and
the `canplaythrough` listener, whether `video.play()` has been requested, and
the shared `AudioWorld`.  The handlers are modelled as state transformers;
environment outcomes that reach the code through promises and events (whether
the greeting has an audio URL, whether audio decoding succeeds, whether
`video.play()` resolves) are explicit boolean parameters. -/

structure SyncState where
  world : AudioWorld
  videoError : Option String
  showVideoPlayer : Bool
  videoPlaybackLoading : Bool
  isPlayingAudio : Bool
  timeoutPending : Bool
  timeoutDeadline : ℚ
  listenerAttached : Bool
  videoPlayRequested : Bool

/-- Observable actions of `startBothPlayback`, in program order. -/
inductive SyncAction
  | audioEnqueue
  | audioEnqueueFailed
  | videoPlay
deriving DecidableEq

/-- The message `video.play()` rejection stores in `videoError`
(GreetingCard.tsx 288). -/
def videoPlayErrorMsg : String :=
  "Could not play video. Ensure your browser allows autoplay or try clicking play manually."

/-- The message `handleVideoError` stores in `videoError` (GreetingCard.tsx 364). -/
def videoLoadErrorMsg : String :=
  "Failed to load video. It might be unavailable or corrupt, or network issues prevented loading."

/-- `startBothPlayback` (GreetingCard.tsx 268-293): clear the pending timeout,
hide the loading spinner, enqueue the synchronized audio through
`playAudioBuffer` first (a failure is caught, logged, and does not block), and
only then command `video.play()` (a rejection sets `videoError`).  Returns the
new state and the ordered list of observable actions. -/
def startBothPlayback (hasAudio audioOk videoOk : Bool) (now duration : ℚ) (src : Nat)
    (s : SyncState) : SyncState × List SyncAction :=
  let s1 := { s with timeoutPending := false, videoPlaybackLoading := false }
  let step2 : SyncState × List SyncAction :=
    if hasAudio then
      if audioOk then
        ({ s1 with world := playAudioBuffer s1.world now duration src },
         [SyncAction.audioEnqueue])
      else (s1, [SyncAction.audioEnqueueFailed])
    else (s1, [])
  let s2 := step2.1
  let s3 :=
    if videoOk then { s2 with videoPlayRequested := true }
    else { s2 with videoPlayRequested := true, videoError := some videoPlayErrorMsg }
  (s3, step2.2 ++ [SyncAction.videoPlay])

/-- `handlePlayVideo` (GreetingCard.tsx 246-310) up to the point where the
video element is loading: stop all scheduler audio, clear error and audio
flags, show the player with the loading spinner, attach the `canplaythrough`
listener, and arm the fallback timer for `now + 10000` milliseconds
(GreetingCard.tsx 303-307, `window.setTimeout(..., 10000)`). -/
def handlePlayVideoSetup (now : ℚ) (s : SyncState) : SyncState :=
  { world := stopAllAudio s.world,
    videoError := none,
    showVideoPlayer := true,
    videoPlaybackLoading := true,
    isPlayingAudio := false,
    timeoutPending := true,
    timeoutDeadline := now + 10000,
    listenerAttached := true,
    videoPlayRequested := false }

/-- The `canplaythrough` handler (GreetingCard.tsx 295-298): remove the
listener, then run `startBothPlayback` (which cancels the pending timer). -/
def onVideoCanPlayThrough (hasAudio audioOk videoOk : Bool) (now duration : ℚ) (src : Nat)
    (s : SyncState) : SyncState × List SyncAction :=
  startBothPlayback hasAudio audioOk videoOk now duration src
    { s with listenerAttached := false }

/-- The fallback timer callback (GreetingCard.tsx 303-307), which the runtime
invokes at the armed deadline when the timer was not cancelled: remove the
listener and run `startBothPlayback` anyway. -/
def timeoutFire (hasAudio audioOk videoOk : Bool) (now duration : ℚ) (src : Nat)
    (s : SyncState) : SyncState × List SyncAction :=
  startBothPlayback hasAudio audioOk videoOk now duration src
    { s with listenerAttached := false }

/-- `handleVideoError` (GreetingCard.tsx 362-367): record a human-readable
error message, hide the loading spinner, keep the player visible.  It does not
touch the audio scheduler or the pending timer. -/
def handleVideoError (s : SyncState) : SyncState :=
  { s with videoError := some videoLoadErrorMsg,
           videoPlaybackLoading := false,
           showVideoPlayer := true }

/-- `handleCloseVideoPlayer` (GreetingCard.tsx 313-334): cancel the pending
timer, stop all scheduler audio, and reset the player state. -/
def handleCloseVideoPlayer (s : SyncState) : SyncState :=
  { s with timeoutPending := false,
           world := stopAllAudio s.world,
           isPlayingAudio := false,
           showVideoPlayer := false,
           videoPlaybackLoading := false,
           videoError := none,
           videoPlayRequested := false }

/-! ## Codec lemmas -/

/-- The base64 alphabet lookup inverts the character map on six-bit values. -/
theorem charSextet_sextetChar : ∀ n, n < 64 → charSextet (sextetChar n) = some n := by
  decide

/-- Alphabet characters are never the padding character. -/
theorem sextetChar_ne_eq : ∀ n, n < 64 → sextetChar n ≠ '=' := by
  decide

/-- `atob` inverts `btoa` on binary strings of 8-bit character codes. -/
theorem atob_btoa : ∀ bs : List Nat, (∀ x ∈ bs, x < 256) → atob (btoa bs) = some bs
  | [], _ => rfl
  | [a], h => by
      have ha : a < 256 := h a (by simp)
      have h1 : a / 4 < 64 := by omega
      have h2 : a % 4 * 16 < 64 := by omega
      simp [btoa, atob, charSextet_sextetChar _ h1, charSextet_sextetChar _ h2]
      omega
  | [a, b], h => by
      have ha : a < 256 := h a (by simp)
      have hb : b < 256 := h b (by simp)
      have h1 : a / 4 < 64 := by omega
      have h2 : a % 4 * 16 + b / 16 < 64 := by omega
      have h3 : b % 16 * 4 < 64 := by omega
      have hne3 : sextetChar (b % 16 * 4) ≠ '=' := sextetChar_ne_eq _ h3
      simp [btoa, atob, charSextet_sextetChar _ h1, charSextet_sextetChar _ h2,
        charSextet_sextetChar _ h3, hne3]
      omega
  | a :: b :: c :: rest, h => by
      have ha : a < 256 := h a (by simp)
      have hb : b < 256 := h b (by simp)
      have hc : c < 256 := h c (by simp)
      have ih : atob (btoa rest) = some rest :=
        atob_btoa rest (fun x hx => h x (by simp [hx]))
      have h1 : a / 4 < 64 := by omega
      have h2 : a % 4 * 16 + b / 16 < 64 := by omega
      have h3 : b % 16 * 4 + c / 64 < 64 := by omega
      have h4 : c % 64 < 64 := by omega
      have hne3 : sextetChar (b % 16 * 4 + c / 64) ≠ '=' := sextetChar_ne_eq _ h3
      have hne4 : sextetChar (c % 64) ≠ '=' := sextetChar_ne_eq _ h4
      simp [btoa, atob, charSextet_sextetChar _ h1, charSextet_sextetChar _ h2,
        charSextet_sextetChar _ h3, charSextet_sextetChar _ h4, hne3, hne4, ih]
      omega

/-- C2: for every byte sequence `b`, decoding the encoding of `b` returns `b`
exactly: `decode (encode b) = some b` — the custom base64 codec of
audioUtils.ts round-trips arbitrary byte sequences. -/
theorem decode_encode_roundtrip (b : List Nat) (h : ∀ x ∈ b, x < 256) :
    decode (encode b) = some b :=
  atob_btoa b h

/-- Witness for `decode_encode_roundtrip` at the concrete byte sequence
`[0, 255, 10]`. -/
theorem decode_encode_roundtrip_witness :
    (∀ x ∈ [0, 255, 10], x < 256) ∧ decode (encode [0, 255, 10]) = some [0, 255, 10] :=
  ⟨by decide, decode_encode_roundtrip [0, 255, 10] (by decide)⟩

/-! ## Int16 / byte-level lemmas -/

/-- `uint16` always lands in the unsigned 16-bit range. -/
theorem uint16_lt (v : Int) : uint16 v < 65536 := by
  unfold uint16; omega

/-- `toInt16` written as a single arithmetic expression on `Int`. -/
theorem toInt16_eq (v : Int) : toInt16 v = (v + 32768) % 65536 - 32768 := by
  unfold toInt16 toSigned16 uint16
  split <;> omega

/-- `toInt16` always lands in the signed 16-bit range. -/
theorem toInt16_range (v : Int) : -32768 ≤ toInt16 v ∧ toInt16 v < 32768 := by
  rw [toInt16_eq]; omega

/-- `toInt16` is the identity on the signed 16-bit range. -/
theorem toInt16_of_mem_range (v : Int) (h1 : -32768 ≤ v) (h2 : v < 32768) :
    toInt16 v = v := by
  rw [toInt16_eq]; omega

/-- All bytes produced by the little-endian int16 view are 8-bit. -/
theorem int16ToBytesLE_bytes_lt (vs : List Int) : ∀ x ∈ int16ToBytesLE vs, x < 256 := by
  intro x hx
  simp only [int16ToBytesLE, List.mem_flatMap, List.mem_cons, List.not_mem_nil,
    or_false] at hx
  obtain ⟨v, _, hx⟩ := hx
  have := uint16_lt v
  rcases hx with h | h <;> omega

/-- The little-endian byte view has two bytes per 16-bit value. -/
theorem int16ToBytesLE_length (vs : List Int) :
    (int16ToBytesLE vs).length = 2 * vs.length := by
  induction vs with
  | nil => rfl
  | cons v rest ih => simp [int16ToBytesLE] at ih ⊢; omega

/-- The `Int16Array` view of a byte buffer has half as many entries. -/
theorem bytesToInt16LE_length : ∀ l : List Nat, (bytesToInt16LE l).length = l.length / 2
  | [] => rfl
  | [_] => by simp [bytesToInt16LE]
  | _ :: _ :: rest => by
      simp only [bytesToInt16LE, List.length_cons, bytesToInt16LE_length rest]
      omega

/-- Reading the little-endian byte view back through `Int16Array` recovers the
values, provided they are genuine signed 16-bit values. -/
theorem bytesToInt16LE_int16ToBytesLE :
    ∀ vs : List Int, (∀ v ∈ vs, -32768 ≤ v ∧ v < 32768) →
      bytesToInt16LE (int16ToBytesLE vs) = vs
  | [], _ => rfl
  | v :: rest, h => by
      have hv := h v (by simp)
      have ih := bytesToInt16LE_int16ToBytesLE rest (fun x hx => h x (by simp [hx]))
      have hu := uint16_lt v
      have hlow : uint16 v % 256 + 256 * (uint16 v / 256) = uint16 v := by omega
      show toSigned16 (uint16 v % 256 + 256 * (uint16 v / 256)) ::
        bytesToInt16LE (int16ToBytesLE rest) = v :: rest
      rw [hlow, ih]
      have : toSigned16 (uint16 v) = v := by
        have := toInt16_eq v
        unfold toInt16 at this
        omega
      rw [this]

/-! ## Truncation lemmas -/

/-- Truncation toward zero moves a value by less than one. -/
theorem truncRat_err (q : ℚ) : |q - (truncRat q : ℚ)| ≤ 1 := by
  unfold truncRat
  split
  · rw [abs_sub_le_iff]
    constructor
    · linarith [Int.lt_floor_add_one q]
    · linarith [Int.floor_le q]
  · rw [abs_sub_le_iff]
    constructor
    · linarith [Int.le_ceil q]
    · linarith [Int.ceil_lt_add_one q]

/-- Truncating a value of `[-32768, 32768)` stays in the signed 16-bit range. -/
theorem truncRat_range (q : ℚ) (h1 : -32768 ≤ q) (h2 : q < 32768) :
    -32768 ≤ truncRat q ∧ truncRat q ≤ 32767 := by
  unfold truncRat
  split
  · have hge : (0 : ℤ) ≤ ⌊q⌋ := Int.floor_nonneg.mpr (by assumption)
    have hlt : ⌊q⌋ < 32768 := Int.floor_lt.mpr (by exact_mod_cast h2)
    omega
  · have hle : ⌈q⌉ ≤ 0 := Int.ceil_le.mpr (by push_cast; linarith)
    have hge : (-32768 : ℤ) ≤ ⌈q⌉ := by
      have := Int.le_ceil q
      exact_mod_cast le_trans h1 this
    omega

/-- `getD` through `map` at an in-bounds index. -/
theorem getD_map_of_lt {α β : Type} [Inhabited β] (f : α → β) (l : List α) (i : Nat)
    (dl : α) (db : β) (h : i < l.length) : (l.map f).getD i db = f (l.getD i dl) := by
  rw [List.getD_eq_getElem _ _ (by simpa using h), List.getD_eq_getElem _ _ h,
    List.getElem_map]

/-- `getD` through `map` over `List.range` at an in-bounds index. -/
theorem getD_range_map {β : Type} (f : Nat → β) (n i : Nat) (db : β) (h : i < n) :
    ((List.range n).map f).getD i db = f i := by
  rw [List.getD_eq_getElem _ _ (by simpa using h), List.getElem_map, List.getElem_range]

/-- C5: `createAudioBlob`'s sample conversion multiplies by 32768, truncates
toward zero, and wraps into the signed 16-bit range with no clamping: each
produced entry is `(trunc (s * 32768) + 2 ^ 15) mod 2 ^ 16 - 2 ^ 15`, and
out-of-range samples wrap instead of saturating — `3 / 2` becomes `-16384`
(not `32767`) and `1` becomes `-32768` (not `32767`). -/
theorem createAudioBlob_truncates_and_wraps :
    (∀ (data : List ℚ) (i : Nat), i < data.length →
      (createAudioBlobInt16 data).getD i 0 =
        (truncRat (data.getD i 0 * 32768) + 32768) % 65536 - 32768) ∧
    createAudioBlobInt16 [(3 : ℚ) / 2] = [-16384] ∧
    createAudioBlobInt16 [(1 : ℚ)] = [-32768] := by
  refine ⟨fun data i h => ?_, ?_, ?_⟩
  · rw [createAudioBlobInt16, getD_map_of_lt floatToInt16 data i 0 0 h,
      floatToInt16, toInt16_eq]
  · have h1 : truncRat ((3 : ℚ) / 2 * 32768) = 49152 := by norm_num [truncRat]
    simp only [createAudioBlobInt16, List.map_cons, List.map_nil, floatToInt16, h1, toInt16_eq]
    decide
  · have h1 : truncRat ((1 : ℚ) * 32768) = 32768 := by norm_num [truncRat]
    simp only [createAudioBlobInt16, List.map_cons, List.map_nil, floatToInt16, h1, toInt16_eq]
    decide

/-- Witness for `createAudioBlob_truncates_and_wraps` at the one-sample
array `[1/4]`. -/
theorem createAudioBlob_truncates_and_wraps_witness :
    0 < ([(1 : ℚ) / 4]).length ∧
      (createAudioBlobInt16 [(1 : ℚ) / 4]).getD 0 0 =
        (truncRat (([(1 : ℚ) / 4]).getD 0 0 * 32768) + 32768) % 65536 - 32768 :=
  ⟨by decide, createAudioBlob_truncates_and_wraps.1 [(1 : ℚ) / 4] 0 (by decide)⟩

/-! ## C4: failure domain of `decodeAudioData` -/

/-- An odd byte count makes `decodeAudioData` fail with `RangeError`. -/
theorem decodeAudioData_odd_error (data : List Nat) (sr ch : Nat)
    (h : data.length % 2 = 1) : decodeAudioData data sr ch = .error .rangeError := by
  unfold decodeAudioData
  rw [if_pos (by omega)]

/-- On a byte count that is a positive multiple of `2 * ch`, `decodeAudioData`
succeeds and the produced buffer deinterleaves the little-endian int16 values
by channel, scaled by `1 / 32768`. -/
theorem decodeAudioData_ok_of_multiple (data : List Nat) (sr ch : Nat)
    (hch : ch ≠ 0) (hlen : data.length % (2 * ch) = 0) (hne : data ≠ []) :
    ∃ buf, decodeAudioData data sr ch = .ok buf ∧
      buf.numChannels = ch ∧
      buf.sampleRate = sr ∧
      buf.length = data.length / 2 / ch ∧
      buf.channelData.length = ch ∧
      ∀ c, c < ch → ∀ i, i < buf.length →
        (buf.channelData.getD c []).getD i 0 =
          ((bytesToInt16LE data).getD (i * ch + c) 0 : ℚ) / 32768 := by
  obtain ⟨k, hk⟩ := Nat.dvd_of_mod_eq_zero hlen
  have h2 : data.length % 2 = 0 := by
    rw [hk, mul_assoc]; exact Nat.mul_mod_right 2 (ch * k)
  have hpos : 0 < data.length := List.length_pos.mpr hne
  have hdvd : 2 * ch ∣ data.length := Nat.dvd_of_mod_eq_zero hlen
  have hge : 2 * ch ≤ data.length := Nat.le_of_dvd hpos hdvd
  have hch2 : ch ≤ data.length / 2 := by
    have : 2 * ch / 2 ≤ data.length / 2 := Nat.div_le_div_right hge
    rwa [Nat.mul_div_cancel_left ch (by norm_num)] at this
  have hfc : 0 < data.length / 2 / ch :=
    Nat.div_pos hch2 (Nat.pos_of_ne_zero hch)
  have h16 : (bytesToInt16LE data).length = data.length / 2 := bytesToInt16LE_length data
  unfold decodeAudioData
  rw [if_neg (by omega), if_neg (by push_neg; exact ⟨hch, by rw [h16]; omega⟩)]
  refine ⟨_, rfl, rfl, rfl, by rw [h16], by simp, fun c hc i hi => ?_⟩
  have hi' : i < (bytesToInt16LE data).length / ch := by
    simpa using hi
  rw [getD_range_map _ ch c _ hc, getD_range_map _ _ i _ hi']

/-- Counterexample to C4 as stated: 6 bytes with 2 channels is not a multiple
of `2 × channelCount = 4`, yet `decodeAudioData` succeeds (the `Int16Array`
constructor only requires an even byte count, and the fractional frame count
is silently truncated) instead of failing with a size-mismatch error. -/
theorem decodeAudioData_size_check_counterexample :
    (decodeAudioData [0, 0, 0, 0, 0, 0] 24000 2).isOk = true ∧ ¬ (6 % (2 * 2) = 0) := by
  exact ⟨rfl, by decide⟩

/-- C4 (amended): `decodeAudioData` fails with `RangeError` exactly when the
byte length is odd (the `Int16Array` constructor's requirement) — not
whenever the byte length fails to divide `2 × channelCount`; on inputs whose
byte length is a positive multiple of `2 × channelCount`, it succeeds and
reinterprets the bytes as little-endian signed 16-bit integers, deinterleaves
by channel, divides by 32768, and produces `byteLength / 2 / channelCount`
frames per channel. -/
theorem decodeAudioData_amended :
    (∀ (data : List Nat) (sr ch : Nat), data.length % 2 = 1 →
      decodeAudioData data sr ch = .error .rangeError) ∧
    (∀ (data : List Nat) (sr ch : Nat), ch ≠ 0 → data.length % (2 * ch) = 0 → data ≠ [] →
      ∃ buf, decodeAudioData data sr ch = .ok buf ∧
        buf.numChannels = ch ∧
        buf.sampleRate = sr ∧
        buf.length = data.length / 2 / ch ∧
        buf.channelData.length = ch ∧
        ∀ c, c < ch → ∀ i, i < buf.length →
          (buf.channelData.getD c []).getD i 0 =
            ((bytesToInt16LE data).getD (i * ch + c) 0 : ℚ) / 32768) :=
  ⟨decodeAudioData_odd_error, decodeAudioData_ok_of_multiple⟩

/-- Witness for `decodeAudioData_amended`: an odd input fails with
`RangeError`, and the two-byte input `[0, 128]` at one channel decodes to a
single frame holding `-32768 / 32768 = -1`. -/
theorem decodeAudioData_amended_witness :
    decodeAudioData [0] 24000 1 = .error .rangeError ∧
      ∃ buf, decodeAudioData [0, 128] 24000 1 = .ok buf ∧
        buf.numChannels = 1 ∧
        buf.sampleRate = 24000 ∧
        buf.length = ([0, 128] : List Nat).length / 2 / 1 ∧
        buf.channelData.length = 1 ∧
        ∀ c, c < 1 → ∀ i, i < buf.length →
          (buf.channelData.getD c []).getD i 0 =
            ((bytesToInt16LE [0, 128]).getD (i * 1 + c) 0 : ℚ) / 32768 :=
  ⟨decodeAudioData_amended.1 [0] 24000 1 (by decide),
   decodeAudioData_amended.2 [0, 128] 24000 1 (by decide) (by decide) (by decide)⟩

/-! ## C6: lossy-bounded PCM16 round trip -/

/-- Per-sample round trip error bound on `[-1, 1)`: converting to PCM16 and
back moves a sample by at most `1 / 32768`. -/
theorem floatToInt16_roundtrip_close (s : ℚ) (h1 : -1 ≤ s) (h2 : s < 1) :
    |((floatToInt16 s : Int) : ℚ) / 32768 - s| ≤ 1 / 32768 := by
  have hq1 : (-32768 : ℚ) ≤ s * 32768 := by nlinarith
  have hq2 : s * 32768 < 32768 := by nlinarith
  have htr := truncRat_range (s * 32768) hq1 hq2
  have hid : floatToInt16 s = truncRat (s * 32768) := by
    rw [floatToInt16, toInt16_of_mem_range _ htr.1 (by omega)]
  have herr := truncRat_err (s * 32768)
  rw [hid]
  have heq : ((truncRat (s * 32768) : Int) : ℚ) / 32768 - s
      = (((truncRat (s * 32768) : Int) : ℚ) - s * 32768) / 32768 := by ring
  rw [heq, abs_div, abs_of_pos (by norm_num : (0 : ℚ) < 32768),
    div_le_div_iff_of_pos_right (by norm_num : (0 : ℚ) < 32768)]
  rw [abs_sub_comm]
  exact herr

/-- Every PCM16 value produced by `createAudioBlob` lies in the signed 16-bit
range. -/
theorem createAudioBlobInt16_range (data : List ℚ) :
    ∀ v ∈ createAudioBlobInt16 data, -32768 ≤ v ∧ v < 32768 := by
  intro v hv
  simp only [createAudioBlobInt16, List.mem_map] at hv
  obtain ⟨s, _, rfl⟩ := hv
  exact toInt16_range _

/-- Counterexample to C6 as stated: the in-range sample `s = 1` survives the
full pipeline (`createAudioBlob`, then `decode`, then `decodeAudioData` with
one channel) as `-1`, an absolute error of `2`, because `1 * 32768 = 32768`
wraps to `-32768` instead of saturating at `32767`. -/
theorem pcm_roundtrip_counterexample :
    ∃ buf,
      decode (createAudioBlob [(1 : ℚ)] 16000).data = some [0, 128] ∧
      decodeAudioData [0, 128] 24000 1 = .ok buf ∧
      (buf.channelData.getD 0 []).getD 0 0 = -1 ∧
      ¬ |(buf.channelData.getD 0 []).getD 0 0 - (1 : ℚ)| ≤ 1 / 32768 := by
  have hblob : createAudioBlobInt16 [(1 : ℚ)] = [-32768] := by
    have h1 : truncRat ((1 : ℚ) * 32768) = 32768 := by norm_num [truncRat]
    simp only [createAudioBlobInt16, List.map_cons, List.map_nil, floatToInt16, h1, toInt16_eq]
    decide
  refine ⟨{ numChannels := 1, length := 1, sampleRate := 24000, channelData := [[-1]] },
    ?_, ?_, by norm_num, by norm_num⟩
  · show decode (encode (int16ToBytesLE (createAudioBlobInt16 [(1 : ℚ)]))) = some [0, 128]
    rw [hblob]
    decide
  · have hb : bytesToInt16LE [0, 128] = [-32768] := by decide
    unfold decodeAudioData
    rw [if_neg (by decide), if_neg (by decide)]
    simp only [Except.ok.injEq]
    rw [hb]
    norm_num [AudioBufferModel.mk.injEq, List.range_succ]

/-- C6 (amended): for samples in `[-1, 1)` — the stated `[-1, 1]` minus the
right endpoint `1`, which the counterexample shows wraps — pushing a sample
array through `createAudioBlob`, the byte codec, and `decodeAudioData` with
one channel recovers every sample within `1 / 32768` absolute error. -/
theorem pcm_roundtrip_amended (data : List ℚ) (blobRate outRate : Nat)
    (hne : data ≠ []) (hs : ∀ s ∈ data, -1 ≤ s ∧ s < 1) :
    ∃ bytes buf,
      decode (createAudioBlob data blobRate).data = some bytes ∧
      decodeAudioData bytes outRate 1 = .ok buf ∧
      buf.length = data.length ∧
      buf.channelData.length = 1 ∧
      ∀ i, i < data.length →
        |(buf.channelData.getD 0 []).getD i 0 - data.getD i 0| ≤ 1 / 32768 := by
  have hblen : (int16ToBytesLE (createAudioBlobInt16 data)).length = 2 * data.length := by
    rw [int16ToBytesLE_length, createAudioBlobInt16, List.length_map]
  have hdecode : decode (createAudioBlob data blobRate).data
      = some (int16ToBytesLE (createAudioBlobInt16 data)) :=
    atob_btoa _ (int16ToBytesLE_bytes_lt _)
  have h1616 : bytesToInt16LE (int16ToBytesLE (createAudioBlobInt16 data))
      = createAudioBlobInt16 data :=
    bytesToInt16LE_int16ToBytesLE _ (createAudioBlobInt16_range data)
  have hbne : int16ToBytesLE (createAudioBlobInt16 data) ≠ [] := by
    intro h
    apply hne
    have h0 : (int16ToBytesLE (createAudioBlobInt16 data)).length = 0 := by rw [h]; rfl
    rw [hblen] at h0
    exact List.length_eq_zero.mp (by omega)
  obtain ⟨buf, hbuf, hnumch, hsr, hlen, hcd, hsamp⟩ :=
    decodeAudioData_ok_of_multiple (int16ToBytesLE (createAudioBlobInt16 data)) outRate 1
      (by norm_num) (by omega) hbne
  have hlen' : buf.length = data.length := by
    rw [hlen, hblen]; omega
  refine ⟨_, buf, hdecode, hbuf, hlen', hcd, fun i hi => ?_⟩
  have hsi := hsamp 0 (by norm_num) i (by rw [hlen']; exact hi)
  rw [mul_one, add_zero] at hsi
  rw [hsi, h1616, createAudioBlobInt16, getD_map_of_lt floatToInt16 data i 0 0 hi]
  have hmem : data.getD i 0 ∈ data := by
    rw [List.getD_eq_getElem _ _ hi]
    exact List.getElem_mem _
  exact floatToInt16_roundtrip_close _ (hs _ hmem).1 (hs _ hmem).2

/-- Witness for `pcm_roundtrip_amended` at the one-sample array `[0]`. -/
theorem pcm_roundtrip_amended_witness :
    ([(0 : ℚ)] ≠ []) ∧ (∀ s ∈ [(0 : ℚ)], -1 ≤ s ∧ s < 1) ∧
      ∃ bytes buf,
        decode (createAudioBlob [(0 : ℚ)] 16000).data = some bytes ∧
        decodeAudioData bytes 24000 1 = .ok buf ∧
        buf.length = ([(0 : ℚ)]).length ∧
        buf.channelData.length = 1 ∧
        ∀ i, i < ([(0 : ℚ)]).length →
          |(buf.channelData.getD 0 []).getD i 0 - ([(0 : ℚ)]).getD i 0| ≤ 1 / 32768 :=
  ⟨by decide, by decide, pcm_roundtrip_amended [(0 : ℚ)] 16000 24000 (by decide) (by decide)⟩

/-! ## C1, C3, C10: playback scheduler -/

/-- C1: enqueueing three buffers back-to-back (each enqueue happening before
the previous buffer's audio region ends) on an otherwise-idle scheduler
starts them at `t0 = max cursor now`, `t0 + d1`, `t0 + d1 + d2`, with the
cursor advanced to `startAt + duration` after each enqueue; every started
handle is registered in the active set and is deregistered again by its
`ended` callback on natural completion. -/
theorem playAudioBuffer_sequential
    (w : AudioWorld) (now1 now2 now3 d1 d2 d3 : ℚ) (s1 s2 s3 : Nat)
    (hc2 : now2 ≤ now1 + d1) (hc3 : now3 ≤ now1 + d1 + d2)
    (hf1 : s1 ∉ w.audioSources) (h21 : s2 ≠ s1) (h31 : s3 ≠ s1) :
    playStartTime w now1 = max w.nextStartTime now1 ∧
    (playAudioBuffer w now1 d1 s1).nextStartTime = playStartTime w now1 + d1 ∧
    playStartTime (playAudioBuffer w now1 d1 s1) now2 = playStartTime w now1 + d1 ∧
    playStartTime (playAudioBuffer (playAudioBuffer w now1 d1 s1) now2 d2 s2) now3
      = playStartTime w now1 + d1 + d2 ∧
    s1 ∈ (playAudioBuffer w now1 d1 s1).audioSources ∧
    s2 ∈ (playAudioBuffer (playAudioBuffer w now1 d1 s1) now2 d2 s2).audioSources ∧
    s3 ∈ (playAudioBuffer (playAudioBuffer (playAudioBuffer w now1 d1 s1) now2 d2 s2)
      now3 d3 s3).audioSources ∧
    s1 ∉ (sourceEnded (playAudioBuffer (playAudioBuffer (playAudioBuffer w now1 d1 s1)
      now2 d2 s2) now3 d3 s3) s1).audioSources := by
  have ht1 : now1 ≤ playStartTime w now1 := le_max_right _ _
  have h3 : playStartTime (playAudioBuffer w now1 d1 s1) now2
      = playStartTime w now1 + d1 := by
    show max (playStartTime w now1 + d1) now2 = playStartTime w now1 + d1
    exact max_eq_left (by linarith)
  have h4 : playStartTime (playAudioBuffer (playAudioBuffer w now1 d1 s1) now2 d2 s2) now3
      = playStartTime w now1 + d1 + d2 := by
    show max (playStartTime (playAudioBuffer w now1 d1 s1) now2 + d2) now3 = _
    rw [h3]
    exact max_eq_left (by linarith)
  refine ⟨rfl, rfl, h3, h4, by simp [playAudioBuffer], by simp [playAudioBuffer],
    by simp [playAudioBuffer], ?_⟩
  simp only [sourceEnded, playAudioBuffer]
  simp [List.erase_cons, h21, h31, hf1, Ne.symm h21, Ne.symm h31]

/-- Witness for `playAudioBuffer_sequential`: the second enqueue on an idle
scheduler starts exactly at the first start time plus the first duration. -/
theorem playAudioBuffer_sequential_witness :
    playStartTime (playAudioBuffer (⟨0, [], []⟩ : AudioWorld) 0 0 1) 0
      = playStartTime (⟨0, [], []⟩ : AudioWorld) 0 + 0 :=
  (playAudioBuffer_sequential ⟨0, [], []⟩ 0 0 0 0 0 0 1 2 3
    (by simp) (by simp) (by decide) (by decide) (by decide)).2.2.1

/-- C3: `stopAllAudio` empties the active set, leaves the cursor untouched,
and any subsequent enqueue starts no earlier than the device clock reading at
that moment. -/
theorem stopAllAudio_frame (w : AudioWorld) (now : ℚ) :
    (stopAllAudio w).audioSources = [] ∧
    (stopAllAudio w).nextStartTime = w.nextStartTime ∧
    now ≤ playStartTime (stopAllAudio w) now :=
  ⟨rfl, rfl, le_max_right _ _⟩

/-- C10: a chunk played by the live-session `onmessage` handler advances only
the session-local cursor, never registers its source in the global active
set, and leaves the global cursor untouched; consequently a later
`stopAllAudio` clears the active set without halting that source. -/
theorem liveOnmessagePlay_isolated (w : AudioWorld) (localCursor now d : ℚ) (src : Nat)
    (hfresh : src ∉ w.audioSources) :
    (liveOnmessagePlay w localCursor now d src).1.nextStartTime = w.nextStartTime ∧
    (liveOnmessagePlay w localCursor now d src).1.audioSources = w.audioSources ∧
    src ∈ (liveOnmessagePlay w localCursor now d src).1.playing ∧
    (liveOnmessagePlay w localCursor now d src).2.2 = max localCursor now ∧
    (liveOnmessagePlay w localCursor now d src).2.1 = max localCursor now + d ∧
    src ∈ (stopAllAudio (liveOnmessagePlay w localCursor now d src).1).playing ∧
    (stopAllAudio (liveOnmessagePlay w localCursor now d src).1).audioSources = [] := by
  refine ⟨rfl, rfl, by simp [liveOnmessagePlay], rfl, rfl, ?_, rfl⟩
  simp [liveOnmessagePlay, stopAllAudio, List.mem_filter, hfresh]

/-- Witness for `liveOnmessagePlay_isolated`: a live-session chunk on a fresh
world leaves the global cursor at `0` and survives `stopAllAudio`. -/
theorem liveOnmessagePlay_isolated_witness :
    (1 ∉ (⟨0, [], []⟩ : AudioWorld).audioSources) ∧
      1 ∈ (stopAllAudio (liveOnmessagePlay (⟨0, [], []⟩ : AudioWorld) 0 0 0 1).1).playing :=
  ⟨by decide, (liveOnmessagePlay_isolated ⟨0, [], []⟩ 0 0 0 1 (by decide)).2.2.2.2.2.1⟩

/-! ## C7, C8, C9: sync playback -/

/-- C7: after `handlePlayVideo` arms the fallback, the timer deadline is
exactly 10000 ms (10 seconds) past arming time; if `canplaythrough` arrives
first, the session reaches the playing state with the timer cancelled (so the
timeout can no longer fire); if the ready signal never arrives, the timer
callback at the deadline still brings the session to the playing state. -/
theorem syncPlayback_timeout (s0 : SyncState) (t0 now d : ℚ) (src : Nat)
    (hasAudio audioOk : Bool) :
    (handlePlayVideoSetup t0 s0).timeoutPending = true ∧
    (handlePlayVideoSetup t0 s0).timeoutDeadline = t0 + 10000 ∧
    (onVideoCanPlayThrough hasAudio audioOk true now d src
      (handlePlayVideoSetup t0 s0)).1.timeoutPending = false ∧
    (onVideoCanPlayThrough hasAudio audioOk true now d src
      (handlePlayVideoSetup t0 s0)).1.videoPlayRequested = true ∧
    (onVideoCanPlayThrough hasAudio audioOk true now d src
      (handlePlayVideoSetup t0 s0)).1.videoError = none ∧
    (timeoutFire hasAudio audioOk true ((handlePlayVideoSetup t0 s0).timeoutDeadline) d src
      (handlePlayVideoSetup t0 s0)).1.videoPlayRequested = true ∧
    (timeoutFire hasAudio audioOk true ((handlePlayVideoSetup t0 s0).timeoutDeadline) d src
      (handlePlayVideoSetup t0 s0)).1.timeoutPending = false ∧
    (timeoutFire hasAudio audioOk true ((handlePlayVideoSetup t0 s0).timeoutDeadline) d src
      (handlePlayVideoSetup t0 s0)).1.videoError = none := by
  cases hasAudio <;> cases audioOk <;>
    simp [handlePlayVideoSetup, onVideoCanPlayThrough, timeoutFire, startBothPlayback]

/-- C8: `startBothPlayback` emits the audio action strictly before the video
start command, and an audio enqueue failure is non-fatal: the video is still
commanded to play, no error is recorded, and the scheduler world is left
untouched (video-only degraded mode). -/
theorem startBothPlayback_audio_first_nonfatal (audioOk : Bool) (s : SyncState)
    (now d : ℚ) (src : Nat) :
    (startBothPlayback true audioOk true now d src s).2
      = [if audioOk then SyncAction.audioEnqueue else SyncAction.audioEnqueueFailed,
         SyncAction.videoPlay] ∧
    (startBothPlayback true audioOk true now d src s).1.videoPlayRequested = true ∧
    (startBothPlayback true audioOk true now d src s).1.videoError = s.videoError ∧
    (startBothPlayback true false true now d src s).1.world = s.world := by
  cases audioOk <;> simp [startBothPlayback]

/-- Counterexample to C9 as stated: from an idle card, play the video, let it
buffer, start synchronized playback (registering audio source `5`), then let
the video element error.  `handleVideoError` records the message, but the
scheduler's active set still holds source `5` — the error transition does not
stop the synchronized audio. -/
theorem handleVideoError_leaves_audio_counterexample :
    ((onVideoCanPlayThrough true true true 0 1 5 (handlePlayVideoSetup 0
      ⟨⟨0, [], []⟩, none, false, false, false, false, 0, false, false⟩)).1.videoError
        = none) ∧
    (handleVideoError (onVideoCanPlayThrough true true true 0 1 5 (handlePlayVideoSetup 0
      ⟨⟨0, [], []⟩, none, false, false, false, false, 0, false, false⟩)).1).videoError
        = some videoLoadErrorMsg ∧
    (handleVideoError (onVideoCanPlayThrough true true true 0 1 5 (handlePlayVideoSetup 0
      ⟨⟨0, [], []⟩, none, false, false, false, false, 0, false, false⟩)).1).world.audioSources
        = [5] ∧
    ([5] : List Nat) ≠ [] :=
  ⟨rfl, rfl, rfl, by decide⟩

/-- C9 (amended): a video resource error records a human-readable message
(reaching the error state) but leaves the playback scheduler untouched — the
active source set is emptied only by the explicit close action
(`handleCloseVideoPlayer`), which also cancels the pending timer. -/
theorem handleVideoError_amended (s : SyncState) :
    (handleVideoError s).videoError = some videoLoadErrorMsg ∧
    videoLoadErrorMsg ≠ "" ∧
    (handleVideoError s).world = s.world ∧
    (handleVideoError s).timeoutPending = s.timeoutPending ∧
    (handleCloseVideoPlayer s).world.audioSources = [] ∧
    (handleCloseVideoPlayer s).timeoutPending = false :=
  ⟨rfl, by decide, rfl, rfl, rfl, rfl⟩
